import Mathlib

/-!
Verification of the AirQ-SAT backend (`backend.py`): a shallow embedding of
the risk classifier, the risk/AQI aggregator, the slug-based region id
generation, the in-memory analysis database and the request handlers, with
theorems checking the natural-language specification against the code.

Numeric pollutant values are modelled as rationals (`ℚ`); the Python code
converts inputs with `float(...)` and compares against the integer
thresholds 10, 40, 100, comparisons which are exact for these bounds.
-/

/-- The ordinal risk levels, in ascending severity.  The Python code uses
the strings `"Bom"`, `"Moderado"`, `"Ruim"`, `"Muito Ruim"`, `"Péssimo"`
(the list `niveis_ordem` in `get_nivel_risco_e_aqi`). -/
inductive NivelRisco where
  | bom
  | moderado
  | ruim
  | muitoRuim
  | pessimo
deriving DecidableEq, Repr

/-- Position of a level in the severity list `niveis_ordem`
(`["Bom", "Moderado", "Ruim", "Muito Ruim", "Péssimo"]`), i.e. the value of
`niveis_ordem.index(level)`. -/
def nivelIndex : NivelRisco → Nat
  | .bom => 0
  | .moderado => 1
  | .ruim => 2
  | .muitoRuim => 3
  | .pessimo => 4

/-- The fixed AQI lookup `mapeamento_risco`:
`{"Bom": 50, "Moderado": 100, "Ruim": 150, "Muito Ruim": 200, "Péssimo": 300}`. -/
def mapeamentoRisco : NivelRisco → Nat
  | .bom => 50
  | .moderado => 100
  | .ruim => 150
  | .muitoRuim => 200
  | .pessimo => 300

/-- A pollutant reading, as assembled in `nova_analise_manual`:
`{"nome": ..., "formula": ..., "valor": ..., "unidade": ..., "nivel_risco": ...}`. -/
structure Poluente where
  nome : String
  formula : String
  valor : ℚ
  unidade : String
  nivel_risco : NivelRisco
deriving DecidableEq, Repr

/-- The loop body of `get_nivel_risco_e_aqi`: keep the accumulator unless the
reading's level has a strictly larger index in `niveis_ordem`. -/
def piorStep (pior : NivelRisco) (p : Poluente) : NivelRisco :=
  if nivelIndex p.nivel_risco > nivelIndex pior then p.nivel_risco else pior

/-- The `pior_nivel` computation of `get_nivel_risco_e_aqi`: fold of
`piorStep` over the readings starting from `"Bom"`. -/
def piorNivel (poluentes : List Poluente) : NivelRisco :=
  poluentes.foldl piorStep .bom

/-- `get_nivel_risco_e_aqi(poluentes)`: the worst level among the readings
paired with its AQI from `mapeamento_risco` (the `.get` default 50 is
unreachable because every level is a key of the mapping). -/
def get_nivel_risco_e_aqi (poluentes : List Poluente) : NivelRisco × Nat :=
  (piorNivel poluentes, mapeamentoRisco (piorNivel poluentes))

/-- `determinar_risco_poluente(nome, valor)`: NO₂ gets the threshold rule,
every other pollutant code gets `"Bom"`. -/
def determinar_risco_poluente (nome : String) (valor : ℚ) : NivelRisco :=
  if nome = "NO₂" then
    if valor < 10 then .bom
    else if valor < 40 then .moderado
    else if valor < 100 then .ruim
    else .muitoRuim
  else .bom

/-! ### Slug-based region id generation (`slugify`, line 41-46) -/

/-- Python `\s` / `str.strip()` whitespace restricted to ASCII (the slugify
pipeline has already discarded non-ASCII code points when whitespace is
tested): space, tab, newline, carriage return, vertical tab, form feed. -/
def pyIsSpace (c : Char) : Bool :=
  c == ' ' || c == '\t' || c == '\n' || c == '\r' || c == Char.ofNat 11 || c == Char.ofNat 12

/-- Python regex `\w` restricted to ASCII: letters, digits and underscore. -/
def pyIsWordChar (c : Char) : Bool :=
  c.isAlphanum || c == '_'

/-- `value.strip()`: drop leading and trailing whitespace. -/
def stripChars (s : List Char) : List Char :=
  ((s.dropWhile pyIsSpace).reverse.dropWhile pyIsSpace).reverse

/-- `re.sub(r'[-\s]+', '-', value)`: replace every maximal run of hyphens and
whitespace by a single hyphen.  The boolean flag records whether the previous
character belonged to such a run (so the run's replacement `-` was already
emitted). -/
def collapseAux : Bool → List Char → List Char
  | _, [] => []
  | inRun, c :: cs =>
    if pyIsSpace c || c == '-' then
      if inRun then collapseAux true cs else '-' :: collapseAux true cs
    else
      c :: collapseAux false cs

/-- `slugify(value)`.  The first stage,
`unicodedata.normalize('NFKD', value).encode('ascii', 'ignore').decode('ascii')`,
is modelled as removal of all non-ASCII code points: this is exact on ASCII
input (NFKD is the identity there), and every theorem below depends only on
the stage being the identity on ASCII digits and the hyphen.  The remaining
stages follow the source line by line: `re.sub(r'[^\w\s-]', '', value)`,
`.strip()`, `.lower()`, `re.sub(r'[-\s]+', '-', value)`. -/
def slugify (s : List Char) : List Char :=
  collapseAux false
    ((stripChars ((s.filter (fun c => decide (c.toNat < 128))).filter
        (fun c => pyIsWordChar c || pyIsSpace c || c == '-'))).map Char.toLower)

/-- Decimal rendering worker: `fuel` bounds the recursion depth (any
`fuel > n` is enough, since `n / 10 < n` for `n ≥ 10`). -/
def decimalDigitsAux (fuel : Nat) (n : Nat) : List Char :=
  match fuel with
  | 0 => []
  | fuel' + 1 =>
    if n < 10 then [Char.ofNat (48 + n)]
    else decimalDigitsAux fuel' (n / 10) ++ [Char.ofNat (48 + n % 10)]

/-- Decimal rendering of a natural number, as the f-string
`f"...-{int(datetime.now().timestamp())}"` renders the epoch-seconds
timestamp. -/
def decimalDigits (n : Nat) : List Char :=
  decimalDigitsAux (n + 1) n

/-- `regiao_id = slugify(f"{nome_regiao}-{int(datetime.now().timestamp())}")`
(line 119 of `nova_analise_manual`). -/
def regionId (nome : List Char) (ts : Nat) : List Char :=
  slugify (nome ++ '-' :: decimalDigits ts)

/-! ### The analysis database, config and request handlers -/

/-- An analysis record (`nova_entrada` in `nova_analise_manual`). -/
structure Entrada where
  nome_regiao : String
  ultima_atualizacao : String
  satelite : String
  aqi_geral : Nat
  nivel_risco : NivelRisco
  poluentes : List Poluente
deriving DecidableEq, Repr

/-- The analysis database `DADOS_DB`: the ordered list `regioes` of
`{id, nome}` pairs and the dict `dados_qualidade_ar` from region id to
record, modelled as an association list in insertion order. -/
structure DadosDB where
  regioes : List (String × String)
  dados_qualidade_ar : List (String × Entrada)
deriving DecidableEq, Repr

/-- The default store used when `dados_mock.json` is absent:
`{"regioes": [], "dados_qualidade_ar": {}}`. -/
def defaultDB : DadosDB := ⟨[], []⟩

/-- `CONFIG`: the three external-API credential fields. -/
structure Config where
  openeo_url : String
  client_id : String
  client_secret : String
deriving DecidableEq, Repr

/-- The default config used when `config.json` is absent:
`{"openeo_url": "", "client_id": "", "client_secret": ""}`. -/
def defaultConfig : Config := ⟨"", "", ""⟩

/-- Dictionary lookup `d.get(k)` on an association list. -/
def lookupAssoc {α : Type} (l : List (String × α)) (k : String) : Option α :=
  match l with
  | [] => none
  | (k', v) :: rest => if k' = k then some v else lookupAssoc rest k

/-- Dictionary assignment `d[k] = v`: overwrite the existing binding in
place, or append a new one. -/
def insertAssoc {α : Type} (l : List (String × α)) (k : String) (v : α) :
    List (String × α) :=
  match l with
  | [] => [(k, v)]
  | (k', v') :: rest =>
    if k' = k then (k, v) :: rest else (k', v') :: insertAssoc rest k v

/-- The HTTP responses the handlers can produce, reduced to the data the
claims mention: status code, returned record, created region, job id. -/
inductive Resposta where
  | erro (status : Nat)
  | configDoc (cfg : Config)
  | regioesList (rs : List (String × String))
  | dados (status : Nat) (e : Entrada)
  | sucessoNova (status : Nat) (id : String) (nome : String)
  | sucessoJob (status : Nat) (jobId : String)
deriving DecidableEq, Repr

/-- Body of `POST /api/nova_analise`: `data.get('nome_regiao')`,
`data.get('no2', 0)`, `data.get('satelite', 'Manual')`.  `no2` is a numeric
value when present (the JSON number or numeric string, already converted). -/
structure NovaAnaliseBody where
  nome_regiao : Option String
  no2 : Option ℚ
  satelite : Option String
deriving DecidableEq, Repr

/-- `GET /api/qualidade_ar` (lines 99-109).  `request.args.get('regiao_id')`
is `none` when the query parameter is absent; the Python truthiness test
`if not regiao_id` also rejects the present-but-empty string with 400. -/
def get_qualidade_ar (db : DadosDB) (regiao_id : Option String) : Resposta :=
  match regiao_id with
  | none => .erro 400
  | some rid =>
    if rid = "" then .erro 400
    else
      match lookupAssoc db.dados_qualidade_ar rid with
      | none => .erro 404
      | some e => .dados 200 e

/-- `POST /api/nova_analise` (lines 111-141): validate `nome_regiao`
(Python falsy test: absent or empty string → 400), build the region id from
the name and the epoch-seconds timestamp `now`, classify the single NO₂
reading (absent `no2` defaults to `0`), aggregate, and store.  `nowIso` is
the ISO-8601 rendering of the wall clock used for `ultima_atualizacao`. -/
def nova_analise_manual (db : DadosDB) (body : NovaAnaliseBody) (now : Nat)
    (nowIso : String) : DadosDB × Resposta :=
  match body.nome_regiao with
  | none => (db, .erro 400)
  | some nome =>
    if nome = "" then (db, .erro 400)
    else
      let rid := String.mk (regionId nome.data now)
      let valor := body.no2.getD 0
      let poluentes : List Poluente :=
        [⟨"Dióxido de Nitrogênio", "NO₂", valor, "μmol/m²",
          determinar_risco_poluente "NO₂" valor⟩]
      let nivelAqi := get_nivel_risco_e_aqi poluentes
      let entrada : Entrada :=
        ⟨nome, nowIso ++ "Z", (body.satelite.getD "Manual"), nivelAqi.2,
          nivelAqi.1, poluentes⟩
      (⟨db.regioes ++ [(rid, nome)],
        insertAssoc db.dados_qualidade_ar rid entrada⟩,
       .sucessoNova 201 rid nome)

/-- `POST /api/automated_analysis` (lines 143-198): 400 when any of the three
config fields is Python-falsy (empty); otherwise the simulated job sequence
synthesizes `job_{int(time.time())}` and the success payload interpolates
`params['nome_regiao']` — a missing key (or missing body) raises inside the
`try`, and the generic handler returns 500. -/
def automated_analysis (cfg : Config) (params : Option (List (String × String)))
    (now : Nat) : Resposta :=
  if cfg.openeo_url = "" ∨ cfg.client_id = "" ∨ cfg.client_secret = "" then
    .erro 400
  else
    match params with
    | none => .erro 500
    | some body =>
      match lookupAssoc body "nome_regiao" with
      | none => .erro 500
      | some _ => .sucessoJob 202 ("job_" ++ String.mk (decimalDigits now))

/-- Body of `POST /api/config`: the three fields, each defaulting to the
empty string when absent (`data.get(..., '')`). -/
structure ConfigBody where
  openeo_url : Option String
  client_id : Option String
  client_secret : Option String
deriving DecidableEq, Repr

/-- The full in-memory server state: `DADOS_DB` and `CONFIG`. -/
structure ServerState where
  dados : DadosDB
  config : Config
deriving DecidableEq, Repr

/-- One inbound request to any of the five routes, carrying the data the
handler reads (bodies, query parameters, the wall clock). -/
inductive Request where
  | getConfig
  | postConfig (body : ConfigBody)
  | getRegioes
  | getQualidadeAr (regiao_id : Option String)
  | novaAnalise (body : NovaAnaliseBody) (now : Nat) (nowIso : String)
  | automatedAnalysis (params : Option (List (String × String))) (now : Nat)

/-- Dispatch one request against the server state, returning the new state
and the response.  Only `POST /api/config` mutates `CONFIG` and only
`POST /api/nova_analise` mutates `DADOS_DB`, exactly as in the source. -/
def step (s : ServerState) : Request → ServerState × Resposta
  | .getConfig => (s, .configDoc s.config)
  | .postConfig body =>
    let cfg : Config :=
      ⟨body.openeo_url.getD "", body.client_id.getD "", body.client_secret.getD ""⟩
    ({ s with config := cfg }, .configDoc cfg)
  | .getRegioes => (s, .regioesList s.dados.regioes)
  | .getQualidadeAr rid => (s, get_qualidade_ar s.dados rid)
  | .novaAnalise body now nowIso =>
    let r := nova_analise_manual s.dados body now nowIso
    ({ s with dados := r.1 }, r.2)
  | .automatedAnalysis params now => (s, automated_analysis s.config params now)

/-- Run a sequence of requests from a starting state. -/
def runRequests (s : ServerState) (reqs : List Request) : ServerState :=
  reqs.foldl (fun st r => (step st r).1) s

/-- The referential-integrity invariant of §3: every region id that keys
`dados_qualidade_ar` has an `{id, nome}` entry in `regioes`. -/
def regioesInvariant (db : DadosDB) : Prop :=
  ∀ rid ∈ db.dados_qualidade_ar.map Prod.fst, ∃ nome, (rid, nome) ∈ db.regioes

/-! ### Helper lemmas on the aggregator fold -/

lemma nivelIndex_le_piorStep_acc (acc : NivelRisco) (p : Poluente) :
    nivelIndex acc ≤ nivelIndex (piorStep acc p) := by
  unfold piorStep
  split_ifs with h
  · omega
  · exact le_refl _

lemma nivelIndex_le_piorStep_elem (acc : NivelRisco) (p : Poluente) :
    nivelIndex p.nivel_risco ≤ nivelIndex (piorStep acc p) := by
  unfold piorStep
  split_ifs with h
  · exact le_refl _
  · omega

lemma piorStep_eq_or (acc : NivelRisco) (p : Poluente) :
    piorStep acc p = acc ∨ piorStep acc p = p.nivel_risco := by
  unfold piorStep
  split_ifs with h
  · exact Or.inr rfl
  · exact Or.inl rfl

lemma foldl_piorStep_acc_le (l : List Poluente) :
    ∀ acc : NivelRisco, nivelIndex acc ≤ nivelIndex (l.foldl piorStep acc) := by
  induction l with
  | nil => intro acc; exact le_refl _
  | cons q t ih =>
    intro acc
    exact le_trans (nivelIndex_le_piorStep_acc acc q) (ih (piorStep acc q))

lemma foldl_piorStep_elem_le (l : List Poluente) :
    ∀ acc : NivelRisco, ∀ p ∈ l,
      nivelIndex p.nivel_risco ≤ nivelIndex (l.foldl piorStep acc) := by
  induction l with
  | nil => intro acc p hp; exact absurd hp (List.not_mem_nil p)
  | cons q t ih =>
    intro acc p hp
    rcases List.mem_cons.mp hp with h | h
    · subst h
      exact le_trans (nivelIndex_le_piorStep_elem acc p)
        (foldl_piorStep_acc_le t (piorStep acc p))
    · exact ih (piorStep acc q) p h

lemma foldl_piorStep_mem_or (l : List Poluente) :
    ∀ acc : NivelRisco,
      l.foldl piorStep acc = acc ∨
        l.foldl piorStep acc ∈ l.map (fun p => p.nivel_risco) := by
  induction l with
  | nil => intro acc; exact Or.inl rfl
  | cons q t ih =>
    intro acc
    rcases ih (piorStep acc q) with h | h
    · rw [List.foldl_cons, h]
      rcases piorStep_eq_or acc q with h' | h'
      · exact Or.inl h'
      · exact Or.inr (by rw [h']; exact List.mem_map_of_mem _ (List.mem_cons_self q t))
    · exact Or.inr (List.mem_cons_of_mem _ (by rwa [List.foldl_cons]))

lemma nivelIndex_eq_zero (x : NivelRisco) (h : nivelIndex x = 0) :
    x = NivelRisco.bom := by
  cases x <;> simp [nivelIndex] at h ⊢

/-! ### Claims C1, C4, C2, C8 -/

/-- C1: for every numeric value v, `classify("NO₂", v)` is `Good` when
`v < 10`, `Moderate` when `10 ≤ v < 40`, `Poor` when `40 ≤ v < 100`, and
`VeryPoor` when `v ≥ 100`. -/
theorem c1_classify_no2_thresholds (v : ℚ) :
    (v < 10 → determinar_risco_poluente "NO₂" v = NivelRisco.bom) ∧
    (10 ≤ v → v < 40 → determinar_risco_poluente "NO₂" v = NivelRisco.moderado) ∧
    (40 ≤ v → v < 100 → determinar_risco_poluente "NO₂" v = NivelRisco.ruim) ∧
    (100 ≤ v → determinar_risco_poluente "NO₂" v = NivelRisco.muitoRuim) := by
  unfold determinar_risco_poluente
  rw [if_pos rfl]
  refine ⟨?_, ?_, ?_, ?_⟩ <;> intros <;> split_ifs <;> first | rfl | linarith

/-- Witness for C1: concrete values in each of the four bands. -/
theorem c1_classify_no2_thresholds_witness :
    determinar_risco_poluente "NO₂" 5 = NivelRisco.bom ∧
    determinar_risco_poluente "NO₂" 20 = NivelRisco.moderado ∧
    determinar_risco_poluente "NO₂" 50 = NivelRisco.ruim ∧
    determinar_risco_poluente "NO₂" 150 = NivelRisco.muitoRuim :=
  ⟨(c1_classify_no2_thresholds 5).1 (by norm_num),
   (c1_classify_no2_thresholds 20).2.1 (by norm_num) (by norm_num),
   (c1_classify_no2_thresholds 50).2.2.1 (by norm_num) (by norm_num),
   (c1_classify_no2_thresholds 150).2.2.2 (by norm_num)⟩

/-- C4: the classifier never returns `Terrible` (`"Péssimo"`), and every
pollutant code other than `"NO₂"` is always classified `Good`. -/
theorem c4_never_pessimo (nome : String) (v : ℚ) :
    determinar_risco_poluente nome v ≠ NivelRisco.pessimo ∧
    (nome ≠ "NO₂" → determinar_risco_poluente nome v = NivelRisco.bom) := by
  unfold determinar_risco_poluente
  constructor
  · split_ifs <;> simp
  · intro h
    rw [if_neg h]

/-- Witness for C4: a pollutant code other than NO₂. -/
theorem c4_never_pessimo_witness :
    determinar_risco_poluente "SO2" 5 ≠ NivelRisco.pessimo ∧
    determinar_risco_poluente "SO2" 5 = NivelRisco.bom :=
  ⟨(c4_never_pessimo "SO2" 5).1, (c4_never_pessimo "SO2" 5).2 (by decide)⟩

/-- C2: the aggregator returns the maximum risk level among the readings in
the severity order (the result bounds every reading and, for a non-empty
list, is one of the readings' levels), the AQI is the fixed lookup applied
to that level, and the empty list yields `(Good, 50)`. -/
theorem c2_aggregate_max (l : List Poluente) :
    get_nivel_risco_e_aqi [] = (NivelRisco.bom, 50) ∧
    (get_nivel_risco_e_aqi l).2 = mapeamentoRisco (get_nivel_risco_e_aqi l).1 ∧
    (∀ p ∈ l, nivelIndex p.nivel_risco ≤ nivelIndex (get_nivel_risco_e_aqi l).1) ∧
    (l ≠ [] → (get_nivel_risco_e_aqi l).1 ∈ l.map (fun p => p.nivel_risco)) := by
  refine ⟨rfl, rfl, ?_, ?_⟩
  · intro p hp
    exact foldl_piorStep_elem_le l NivelRisco.bom p hp
  · intro hne
    rcases foldl_piorStep_mem_or l NivelRisco.bom with h | h
    · rcases List.exists_mem_of_ne_nil l hne with ⟨q, hq⟩
      have hle := foldl_piorStep_elem_le l NivelRisco.bom q hq
      unfold get_nivel_risco_e_aqi piorNivel
      rw [h] at hle ⊢
      have hq0 : nivelIndex q.nivel_risco = 0 := by
        simpa [nivelIndex] using hle
      have : q.nivel_risco = NivelRisco.bom := nivelIndex_eq_zero _ hq0
      exact List.mem_map.mpr ⟨q, hq, this⟩
    · exact h

/-- Witness for C2: a singleton list with a `Poor` reading. -/
theorem c2_aggregate_max_witness :
    (get_nivel_risco_e_aqi [⟨"Dióxido de Nitrogênio", "NO₂", 50, "μmol/m²", NivelRisco.ruim⟩]).1
      ∈ [(⟨"Dióxido de Nitrogênio", "NO₂", 50, "μmol/m²", NivelRisco.ruim⟩ : Poluente)].map
          (fun p => p.nivel_risco) :=
  (c2_aggregate_max _).2.2.2 (List.cons_ne_nil _ _)

/-- C8: appending one more reading never decreases the aggregated overall
risk level. -/
theorem c8_aggregate_monotonic (l : List Poluente) (p : Poluente) :
    nivelIndex (get_nivel_risco_e_aqi l).1
      ≤ nivelIndex (get_nivel_risco_e_aqi (l ++ [p])).1 := by
  unfold get_nivel_risco_e_aqi piorNivel
  rw [List.foldl_append, List.foldl_cons, List.foldl_nil]
  exact nivelIndex_le_piorStep_acc _ _

/-! ### Lemmas on the decimal rendering of the timestamp -/

/-- Base-10 value of a digit string (left fold), used to invert
`decimalDigits`. -/
def digitsVal (l : List Char) : Nat :=
  l.foldl (fun a c => 10 * a + (c.toNat - 48)) 0

lemma charOfNat_digit_toNat (k : Nat) (hk : k < 10) :
    (Char.ofNat (48 + k)).toNat = 48 + k := by
  interval_cases k <;> decide

lemma digitChar_props (k : Nat) (hk : k < 10) :
    pyIsSpace (Char.ofNat (48 + k)) = false ∧
    pyIsWordChar (Char.ofNat (48 + k)) = true ∧
    (Char.ofNat (48 + k)).toNat < 128 ∧
    Char.toLower (Char.ofNat (48 + k)) = Char.ofNat (48 + k) ∧
    ((Char.ofNat (48 + k)) == '-') = false := by
  interval_cases k <;> exact ⟨rfl, rfl, by decide, rfl, rfl⟩

lemma decimalDigitsAux_mem (fuel : Nat) :
    ∀ n : Nat, ∀ c ∈ decimalDigitsAux fuel n, ∃ k, k < 10 ∧ c = Char.ofNat (48 + k) := by
  induction fuel with
  | zero => intro n c hc; simp [decimalDigitsAux] at hc
  | succ f ih =>
    intro n c hc
    unfold decimalDigitsAux at hc
    split_ifs at hc with h
    · exact ⟨n, h, (List.mem_singleton.mp hc)⟩
    · rcases List.mem_append.mp hc with h' | h'
      · exact ih (n / 10) c h'
      · exact ⟨n % 10, Nat.mod_lt _ (by omega), List.mem_singleton.mp h'⟩

lemma decimalDigits_mem (n : Nat) :
    ∀ c ∈ decimalDigits n, ∃ k, k < 10 ∧ c = Char.ofNat (48 + k) :=
  decimalDigitsAux_mem (n + 1) n

lemma decimalDigits_ne_nil (n : Nat) : decimalDigits n ≠ [] := by
  unfold decimalDigits decimalDigitsAux
  split_ifs with h
  · simp
  · simp

lemma digitsVal_append_singleton (l : List Char) (c : Char) :
    digitsVal (l ++ [c]) = 10 * digitsVal l + (c.toNat - 48) := by
  unfold digitsVal
  rw [List.foldl_append]
  rfl

lemma digitsVal_decimalDigitsAux (fuel : Nat) :
    ∀ n : Nat, n < fuel → digitsVal (decimalDigitsAux fuel n) = n := by
  induction fuel with
  | zero => intro n hn; omega
  | succ f ih =>
    intro n hn
    unfold decimalDigitsAux
    split_ifs with h
    · simp [digitsVal, charOfNat_digit_toNat n h]
    · have hdiv : n / 10 < n := Nat.div_lt_self (by omega) (by omega)
      rw [digitsVal_append_singleton, ih (n / 10) (by omega),
        charOfNat_digit_toNat (n % 10) (Nat.mod_lt _ (by omega))]
      omega

lemma decimalDigits_inj {m n : Nat} (h : decimalDigits m = decimalDigits n) :
    m = n := by
  have hm := digitsVal_decimalDigitsAux (m + 1) m (Nat.lt_succ_self m)
  have hn := digitsVal_decimalDigitsAux (n + 1) n (Nat.lt_succ_self n)
  unfold decimalDigits at h
  rw [h, hn] at hm
  omega

/-! ### Structure of `slugify` on a name followed by the timestamp -/

lemma decimalDigits_char_props (n : Nat) :
    ∀ c ∈ decimalDigits n,
      decide (c.toNat < 128) = true ∧
      (pyIsWordChar c || pyIsSpace c || c == '-') = true ∧
      pyIsSpace c = false ∧
      Char.toLower c = c ∧
      (pyIsSpace c || c == '-') = false := by
  intro c hc
  obtain ⟨k, hk, rfl⟩ := decimalDigits_mem n c hc
  obtain ⟨h1, h2, h3, h4, h5⟩ := digitChar_props k hk
  refine ⟨by simpa using h3, by rw [h2]; simp, h1, h4, by simp [h1, h5]⟩

lemma collapseAux_no_run :
    ∀ d : List Char, (∀ c ∈ d, (pyIsSpace c || c == '-') = false) →
      ∀ b : Bool, collapseAux b d = d := by
  intro d
  induction d with
  | nil => intro _ b; rfl
  | cons c rest ih =>
    intro hd b
    have hc := hd c (List.mem_cons_self c rest)
    simp only [collapseAux, hc, Bool.false_eq_true, if_false]
    rw [ih (fun x hx => hd x (List.mem_cons_of_mem c hx)) false]

lemma collapseAux_append_hyphen_digits (d : List Char)
    (hd : ∀ c ∈ d, (pyIsSpace c || c == '-') = false) :
    ∀ (z : List Char) (b : Bool),
      collapseAux b (z ++ '-' :: d) = collapseAux b (z ++ ['-']) ++ d := by
  have hhy : (pyIsSpace '-' || '-' == '-') = true := by decide
  intro z
  induction z with
  | nil =>
    intro b
    cases b with
    | false => simp [collapseAux, hhy, collapseAux_no_run d hd true]
    | true => simp [collapseAux, hhy, collapseAux_no_run d hd true]
  | cons a t ih =>
    intro b
    by_cases ha : (pyIsSpace a || a == '-') = true
    · cases b <;> simp [collapseAux, ha, ih]
    · simp [collapseAux, ha, ih]

lemma dropWhile_append_cons (p : Char → Bool) (y : List Char) (c : Char)
    (d : List Char) (hc : p c = false) :
    (y ++ c :: d).dropWhile p = y.dropWhile p ++ c :: d := by
  induction y with
  | nil => simp [List.dropWhile_cons, hc]
  | cons a t ih =>
    by_cases h : p a = true
    · simp [List.dropWhile_cons, h, ih]
    · simp [List.dropWhile_cons, h]

lemma stripChars_append_hyphen_digits (y d : List Char) (hne : d ≠ [])
    (hd : ∀ c ∈ d, pyIsSpace c = false) :
    stripChars (y ++ '-' :: d) = y.dropWhile pyIsSpace ++ '-' :: d := by
  unfold stripChars
  rw [dropWhile_append_cons _ y '-' d (by decide)]
  obtain ⟨e, rest, hrev⟩ : ∃ e rest, d.reverse = e :: rest := by
    cases hr : d.reverse with
    | nil => exact absurd (by simpa using congrArg List.reverse hr) hne
    | cons e rest => exact ⟨e, rest, rfl⟩
  have he : pyIsSpace e = false := by
    refine hd e ?_
    rw [← List.mem_reverse, hrev]
    exact List.mem_cons_self e rest
  have hrevform : (y.dropWhile pyIsSpace ++ '-' :: d).reverse =
      e :: (rest ++ '-' :: (y.dropWhile pyIsSpace).reverse) := by
    rw [List.reverse_append, List.reverse_cons, hrev]
    simp [List.append_assoc]
  calc ((y.dropWhile pyIsSpace ++ '-' :: d).reverse.dropWhile pyIsSpace).reverse
      = ((e :: (rest ++ '-' :: (y.dropWhile pyIsSpace).reverse)).dropWhile
          pyIsSpace).reverse := by rw [hrevform]
    _ = (e :: (rest ++ '-' :: (y.dropWhile pyIsSpace).reverse)).reverse := by
          simp [List.dropWhile_cons, he]
    _ = ((y.dropWhile pyIsSpace ++ '-' :: d).reverse).reverse := by rw [hrevform]
    _ = y.dropWhile pyIsSpace ++ '-' :: d := List.reverse_reverse _

lemma collapseAux_ends_hyphen : ∀ (w : List Char) (b : Bool),
    (∃ u, collapseAux b (w ++ ['-']) = u ++ ['-']) ∨
      (collapseAux b (w ++ ['-']) = [] ∧ b = true) := by
  intro w
  induction w with
  | nil =>
    intro b
    cases b with
    | false => exact Or.inl ⟨[], by decide⟩
    | true => exact Or.inr ⟨by decide, rfl⟩
  | cons a w' ih =>
    intro b
    by_cases ha : (pyIsSpace a || a == '-') = true
    · cases b with
      | true =>
        have hstep : collapseAux true ((a :: w') ++ ['-']) =
            collapseAux true (w' ++ ['-']) := by
          simp [collapseAux, ha]
        rcases ih true with ⟨u, hu⟩ | ⟨h0, _⟩
        · exact Or.inl ⟨u, by rw [hstep, hu]⟩
        · exact Or.inr ⟨by rw [hstep, h0], rfl⟩
      | false =>
        have hstep : collapseAux false ((a :: w') ++ ['-']) =
            '-' :: collapseAux true (w' ++ ['-']) := by
          simp [collapseAux, ha]
        rcases ih true with ⟨u, hu⟩ | ⟨h0, _⟩
        · exact Or.inl ⟨'-' :: u, by rw [hstep, hu]; rfl⟩
        · exact Or.inl ⟨[], by rw [hstep, h0]; rfl⟩
    · have hstep : collapseAux b ((a :: w') ++ ['-']) =
          a :: collapseAux false (w' ++ ['-']) := by
        cases b <;> simp [collapseAux, ha]
      rcases ih false with ⟨u, hu⟩ | ⟨_, hb⟩
      · exact Or.inl ⟨a :: u, by rw [hstep, hu]; rfl⟩
      · exact absurd hb (by decide)

lemma no_hyphen_seg_inj : ∀ (e1 e2 r1 r2 : List Char),
    (∀ c ∈ e1, c ≠ '-') → (∀ c ∈ e2, c ≠ '-') →
    e1 ++ '-' :: r1 = e2 ++ '-' :: r2 → e1 = e2 ∧ r1 = r2 := by
  intro e1
  induction e1 with
  | nil =>
    intro e2 r1 r2 _ h2 heq
    rw [List.nil_append] at heq
    cases e2 with
    | nil =>
      rw [List.nil_append] at heq
      exact ⟨rfl, (List.cons.inj heq).2⟩
    | cons c2 rest2 =>
      rw [List.cons_append] at heq
      exact absurd ((List.cons.inj heq).1).symm
        (h2 c2 (List.mem_cons_self c2 rest2))
  | cons c1 rest1 ih =>
    intro e2 r1 r2 h1 h2 heq
    rw [List.cons_append] at heq
    cases e2 with
    | nil =>
      rw [List.nil_append] at heq
      exact absurd (List.cons.inj heq).1 (h1 c1 (List.mem_cons_self c1 rest1))
    | cons c2 rest2 =>
      rw [List.cons_append] at heq
      obtain ⟨hc, ht⟩ := List.cons.inj heq
      obtain ⟨he, hr⟩ := ih rest2 r1 r2 (fun c hc' => h1 c (List.mem_cons_of_mem _ hc'))
        (fun c hc' => h2 c (List.mem_cons_of_mem _ hc')) ht
      exact ⟨by rw [hc, he], hr⟩

lemma regionId_split (nome : List Char) :
    ∃ u : List Char, ∀ m : Nat, regionId nome m = u ++ '-' :: decimalDigits m := by
  have hsplit := collapseAux_ends_hyphen
    ((((nome.filter fun c => decide (c.toNat < 128)).filter
        fun c => pyIsWordChar c || pyIsSpace c || c == '-').dropWhile
          pyIsSpace).map Char.toLower) false
  rcases hsplit with ⟨u, hu⟩ | ⟨_, hb⟩
  swap
  · exact absurd hb (by decide)
  refine ⟨u, ?_⟩
  intro m
  have hd := decimalDigits_char_props m
  unfold regionId slugify
  rw [List.filter_append, List.filter_cons]
  rw [List.filter_eq_self.mpr (fun c hc => (hd c hc).1)]
  simp only [show (fun c => decide (c.toNat < 128)) '-' = true from by decide, if_true]
  rw [List.filter_append, List.filter_cons]
  rw [List.filter_eq_self.mpr (fun c hc => (hd c hc).2.1)]
  simp only [show (fun c => pyIsWordChar c || pyIsSpace c || c == '-') '-' = true
    from by decide, if_true]
  rw [stripChars_append_hyphen_digits _ _ (decimalDigits_ne_nil m)
    (fun c hc => (hd c hc).2.2.1)]
  rw [List.map_append, List.map_cons]
  rw [show Char.toLower '-' = '-' from by decide]
  rw [List.map_congr_left (fun c hc => (hd c hc).2.2.2.1)]
  rw [List.map_id']
  rw [collapseAux_append_hyphen_digits (decimalDigits m)
    (fun c hc => (hd c hc).2.2.2.2) _ false]
  rw [hu]
  simp

lemma decimalDigits_reverse_no_hyphen (t : Nat) :
    ∀ c ∈ (decimalDigits t).reverse, c ≠ '-' := by
  intro c hc hcc
  have hb := (decimalDigits_char_props t c (List.mem_reverse.mp hc)).2.2.2.2
  rw [hcc] at hb
  exact absurd hb (by decide)

/-! ### Claim C3 -/

/-- C3: region id generation is injective across calls at different
epoch-seconds timestamps, even with identical region names — the slug always
ends with a hyphen followed by the verbatim decimal timestamp, so different
times give different ids. -/
theorem c3_region_id_inj (nome1 nome2 : List Char) (t1 t2 : Nat) (h : t1 ≠ t2) :
    regionId nome1 t1 ≠ regionId nome2 t2 := by
  obtain ⟨u1, hu1⟩ := regionId_split nome1
  obtain ⟨u2, hu2⟩ := regionId_split nome2
  intro heq
  rw [hu1 t1, hu2 t2] at heq
  have hrev := congrArg List.reverse heq
  rw [List.reverse_append, List.reverse_append, List.reverse_cons,
    List.reverse_cons, List.append_assoc, List.append_assoc,
    List.singleton_append, List.singleton_append] at hrev
  have hdd := (no_hyphen_seg_inj (decimalDigits t1).reverse
    (decimalDigits t2).reverse u1.reverse u2.reverse
    (decimalDigits_reverse_no_hyphen t1)
    (decimalDigits_reverse_no_hyphen t2) hrev).1
  exact h (decimalDigits_inj (List.reverse_injective hdd))

/-- Witness for C3: the same name at two concrete timestamps. -/
theorem c3_region_id_inj_witness :
    regionId "Centro".data 1 ≠ regionId "Centro".data 2 :=
  c3_region_id_inj "Centro".data "Centro".data 1 2 (by decide)

/-! ### Lookup/insert lemmas for the handler claims -/

lemma lookupAssoc_insertAssoc_self {α : Type} (l : List (String × α))
    (k : String) (v : α) : lookupAssoc (insertAssoc l k v) k = some v := by
  induction l with
  | nil => simp [insertAssoc, lookupAssoc]
  | cons p rest ih =>
    obtain ⟨k', v'⟩ := p
    by_cases h : k' = k
    · subst h
      simp [insertAssoc, lookupAssoc]
    · simp [insertAssoc, lookupAssoc, h, ih]

lemma mem_keys_insertAssoc {α : Type} (l : List (String × α)) (k : String)
    (v : α) : ∀ x ∈ (insertAssoc l k v).map Prod.fst,
      x ∈ l.map Prod.fst ∨ x = k := by
  induction l with
  | nil =>
    intro x hx
    rw [show insertAssoc ([] : List (String × α)) k v = [(k, v)] from rfl] at hx
    exact Or.inr (List.mem_singleton.mp hx)
  | cons p rest ih =>
    obtain ⟨k', v'⟩ := p
    intro x hx
    by_cases h : k' = k
    · rw [show insertAssoc ((k', v') :: rest) k v = (k, v) :: rest from by
        simp [insertAssoc, h]] at hx
      rw [List.map_cons] at hx
      rcases List.mem_cons.mp hx with h1 | h2
      · exact Or.inr h1
      · exact Or.inl (by rw [List.map_cons]; exact List.mem_cons_of_mem _ h2)
    · rw [show insertAssoc ((k', v') :: rest) k v = (k', v') :: insertAssoc rest k v from by
        simp [insertAssoc, h]] at hx
      rw [List.map_cons] at hx
      rcases List.mem_cons.mp hx with h1 | h2
      · exact Or.inl (by rw [List.map_cons, h1]; exact List.mem_cons_self _ _)
      · rcases ih x h2 with h' | h'
        · exact Or.inl (by rw [List.map_cons]; exact List.mem_cons_of_mem _ h')
        · exact Or.inr h'

/-! ### Claims C9 and C10 -/

/-- Counterexample to C9 as stated: a body whose `nome_regiao` key is present
but holds the empty string (and which omits `no2`) is rejected with 400 by
the Python truthiness test `if not nome_regiao`, not stored with 201. -/
theorem c9_counterexample :
    (⟨some "", none, none⟩ : NovaAnaliseBody).nome_regiao = some "" ∧
    (nova_analise_manual ⟨[], []⟩ ⟨some "", none, none⟩ 0 "T").2 = Resposta.erro 400 ∧
    (nova_analise_manual ⟨[], []⟩ ⟨some "", none, none⟩ 0 "T").2 ≠
      Resposta.sucessoNova 201 (String.mk (regionId "".data 0)) "" ∧
    (nova_analise_manual ⟨[], []⟩ ⟨some "", none, none⟩ 0 "T").1 = (⟨[], []⟩ : DadosDB) := by
  decide

/-- C9 amended: a `POST /api/nova_analise` body with a non-empty
`nome_regiao` but without `no2` succeeds with 201, and the stored record
holds exactly one NO₂ reading with value 0, level `"Bom"` and overall AQI 50
— the missing field silently defaults to 0. -/
theorem c9_missing_no2_defaults (db : DadosDB) (nome : String) (hne : nome ≠ "")
    (sat : Option String) (now : Nat) (nowIso : String) :
    (nova_analise_manual db ⟨some nome, none, sat⟩ now nowIso).2 =
      Resposta.sucessoNova 201 (String.mk (regionId nome.data now)) nome ∧
    lookupAssoc
        (nova_analise_manual db ⟨some nome, none, sat⟩ now nowIso).1.dados_qualidade_ar
        (String.mk (regionId nome.data now)) =
      some ⟨nome, nowIso ++ "Z", sat.getD "Manual", 50, NivelRisco.bom,
        [⟨"Dióxido de Nitrogênio", "NO₂", 0, "μmol/m²", NivelRisco.bom⟩]⟩ := by
  have hrisco : determinar_risco_poluente "NO₂" 0 = NivelRisco.bom := by decide
  constructor <;>
    simp [nova_analise_manual, hne, hrisco, get_nivel_risco_e_aqi, piorNivel,
      piorStep, nivelIndex, mapeamentoRisco, lookupAssoc_insertAssoc_self]

/-- Witness for C9: a concrete body with `nome_regiao` only. -/
theorem c9_missing_no2_defaults_witness :
    (nova_analise_manual ⟨[], []⟩ ⟨some "Centro", none, none⟩ 0 "T").2 =
      Resposta.sucessoNova 201 (String.mk (regionId "Centro".data 0)) "Centro" ∧
    lookupAssoc
        (nova_analise_manual ⟨[], []⟩ ⟨some "Centro", none, none⟩ 0 "T").1.dados_qualidade_ar
        (String.mk (regionId "Centro".data 0)) =
      some ⟨"Centro", "T" ++ "Z", "Manual", 50, NivelRisco.bom,
        [⟨"Dióxido de Nitrogênio", "NO₂", 0, "μmol/m²", NivelRisco.bom⟩]⟩ :=
  c9_missing_no2_defaults ⟨[], []⟩ "Centro" (by decide) none 0 "T"

/-- C10: with complete credentials but a body lacking `nome_regiao`, the
automated-analysis endpoint answers 500 (the lookup failure is caught by the
generic handler), not 400. -/
theorem c10_missing_nome_500 (cfg : Config)
    (params : Option (List (String × String)))
    (h1 : cfg.openeo_url ≠ "") (h2 : cfg.client_id ≠ "")
    (h3 : cfg.client_secret ≠ "")
    (hp : ∀ body, params = some body → lookupAssoc body "nome_regiao" = none)
    (now : Nat) :
    automated_analysis cfg params now = Resposta.erro 500 := by
  unfold automated_analysis
  rw [if_neg (by push_neg; exact ⟨h1, h2, h3⟩)]
  cases params with
  | none => rfl
  | some body => simp [hp body rfl]

/-- Witness for C10: complete credentials, empty body. -/
theorem c10_missing_nome_500_witness :
    automated_analysis ⟨"url", "id", "secret"⟩ (some []) 0 = Resposta.erro 500 :=
  c10_missing_nome_500 ⟨"url", "id", "secret"⟩ (some []) (by decide) (by decide)
    (by decide) (fun body hb => by rw [← Option.some.inj hb]; rfl) 0

/-! ### Claim C7 -/

/-- Counterexample to C7 as stated: with all three config fields non-empty
but a body without `nome_regiao`, the endpoint answers 500, not 202 with a
synthesized job id (nor 400). -/
theorem c7_counterexample :
    automated_analysis ⟨"url", "id", "secret"⟩ (some []) 0 = Resposta.erro 500 ∧
    Resposta.erro 500 ≠ Resposta.sucessoJob 202 ("job_" ++ String.mk (decimalDigits 0)) ∧
    Resposta.erro 500 ≠ Resposta.erro 400 := by
  decide

/-- C7 amended: the endpoint answers 400 exactly when some config field is
empty; with all three non-empty and a body carrying `nome_regiao`, it
answers 202 with `job_` followed by the decimal timestamp. -/
theorem c7_config_gate (cfg : Config) (params : Option (List (String × String)))
    (now : Nat) :
    (automated_analysis cfg params now = Resposta.erro 400 ↔
      cfg.openeo_url = "" ∨ cfg.client_id = "" ∨ cfg.client_secret = "") ∧
    (cfg.openeo_url ≠ "" → cfg.client_id ≠ "" → cfg.client_secret ≠ "" →
      ∀ body nome, params = some body →
        lookupAssoc body "nome_regiao" = some nome →
          automated_analysis cfg params now =
            Resposta.sucessoJob 202 ("job_" ++ String.mk (decimalDigits now))) := by
  unfold automated_analysis
  by_cases hcfg : cfg.openeo_url = "" ∨ cfg.client_id = "" ∨ cfg.client_secret = ""
  · rw [if_pos hcfg]
    refine ⟨⟨fun _ => hcfg, fun _ => rfl⟩, ?_⟩
    intro h1 h2 h3
    exact absurd hcfg (by push_neg; exact ⟨h1, h2, h3⟩)
  · rw [if_neg hcfg]
    constructor
    · constructor
      · intro h
        exfalso
        cases params with
        | none => simp at h
        | some body =>
          cases hl : lookupAssoc body "nome_regiao" with
          | none => simp [hl] at h
          | some nome => simp [hl] at h
      · intro hc
        exact absurd hc hcfg
    · intro h1 h2 h3 body nome hb hl
      subst hb
      simp [hl]

/-- Witness for C7 amended: full credentials and a body with `nome_regiao`. -/
theorem c7_config_gate_witness :
    automated_analysis ⟨"url", "id", "secret"⟩ (some [("nome_regiao", "Centro")]) 0 =
      Resposta.sucessoJob 202 ("job_" ++ String.mk (decimalDigits 0)) :=
  (c7_config_gate ⟨"url", "id", "secret"⟩ (some [("nome_regiao", "Centro")]) 0).2
    (by decide) (by decide) (by decide) [("nome_regiao", "Centro")] "Centro" rfl
    (by decide)

/-! ### Claim C6 -/

/-- Counterexample to C6 as stated: the query parameter present but equal to
the empty string (`?regiao_id=`) names no record, so the claim demands 404,
but the Python truthiness test `if not regiao_id` answers 400. -/
theorem c6_counterexample :
    (some "" ≠ (none : Option String)) ∧
    lookupAssoc (⟨[], []⟩ : DadosDB).dados_qualidade_ar "" = none ∧
    get_qualidade_ar ⟨[], []⟩ (some "") ≠ Resposta.erro 404 ∧
    get_qualidade_ar ⟨[], []⟩ (some "") = Resposta.erro 400 := by
  decide

/-- C6 amended: an absent or empty `regiao_id` answers 400; a present
non-empty id with no stored record answers 404; otherwise the stored record
is returned unchanged with 200. -/
theorem c6_qualidade_ar_cases (db : DadosDB) (param : Option String) :
    (param = none → get_qualidade_ar db param = Resposta.erro 400) ∧
    (param = some "" → get_qualidade_ar db param = Resposta.erro 400) ∧
    (∀ s, param = some s → s ≠ "" → lookupAssoc db.dados_qualidade_ar s = none →
      get_qualidade_ar db param = Resposta.erro 404) ∧
    (∀ s e, param = some s → s ≠ "" → lookupAssoc db.dados_qualidade_ar s = some e →
      get_qualidade_ar db param = Resposta.dados 200 e) := by
  refine ⟨?_, ?_, ?_, ?_⟩
  · intro h
    subst h
    rfl
  · intro h
    subst h
    simp [get_qualidade_ar]
  · intro s h hne hl
    subst h
    simp only [get_qualidade_ar]
    rw [if_neg hne, hl]
  · intro s e h hne hl
    subst h
    simp only [get_qualidade_ar]
    rw [if_neg hne, hl]

/-- Witness for C6 amended: the three reachable outcomes at concrete
inputs. -/
theorem c6_qualidade_ar_cases_witness :
    get_qualidade_ar ⟨[], []⟩ none = Resposta.erro 400 ∧
    get_qualidade_ar ⟨[], []⟩ (some "x") = Resposta.erro 404 ∧
    get_qualidade_ar ⟨[], [("x", ⟨"Centro", "T", "Manual", 50, NivelRisco.bom, []⟩)]⟩
        (some "x") =
      Resposta.dados 200 ⟨"Centro", "T", "Manual", 50, NivelRisco.bom, []⟩ :=
  ⟨(c6_qualidade_ar_cases ⟨[], []⟩ none).1 rfl,
   (c6_qualidade_ar_cases ⟨[], []⟩ (some "x")).2.2.1 "x" rfl (by decide) rfl,
   (c6_qualidade_ar_cases ⟨[], [("x", ⟨"Centro", "T", "Manual", 50, NivelRisco.bom, []⟩)]⟩
       (some "x")).2.2.2 "x" ⟨"Centro", "T", "Manual", 50, NivelRisco.bom, []⟩ rfl
     (by decide) (by decide)⟩

/-! ### Claim C5 -/

lemma step_preserves_regioesInvariant (s : ServerState) (r : Request)
    (h : regioesInvariant s.dados) : regioesInvariant ((step s r).1).dados := by
  cases r with
  | getConfig => exact h
  | postConfig body => exact h
  | getRegioes => exact h
  | getQualidadeAr rid => exact h
  | automatedAnalysis params now => exact h
  | novaAnalise body now nowIso =>
    show regioesInvariant (nova_analise_manual s.dados body now nowIso).1
    cases hb : body.nome_regiao with
    | none =>
      unfold nova_analise_manual
      rw [hb]
      exact h
    | some nome =>
      by_cases hne : nome = ""
      · unfold nova_analise_manual
        rw [hb, hne]
        simp only [if_pos rfl]
        exact h
      · unfold nova_analise_manual
        rw [hb]
        simp only [if_neg hne]
        intro x hx
        rcases mem_keys_insertAssoc s.dados.dados_qualidade_ar
            (String.mk (regionId nome.data now)) _ x hx with hmem | heq
        · obtain ⟨n', hn'⟩ := h x hmem
          exact ⟨n', List.mem_append_left _ hn'⟩
        · exact ⟨nome, List.mem_append_right _ (by rw [heq]; exact List.mem_singleton.mpr rfl)⟩

/-- C5: starting from the empty default store, after any sequence of
requests every region id that keys `dados_qualidade_ar` has a matching
`{id, nome}` entry in `regioes` — only the Record Builder mutates the
store, and it appends the pair it inserts under. -/
theorem c5_regioes_referential_integrity (reqs : List Request) :
    regioesInvariant (runRequests ⟨defaultDB, defaultConfig⟩ reqs).dados := by
  have H : ∀ s : ServerState, regioesInvariant s.dados →
      regioesInvariant (runRequests s reqs).dados := by
    induction reqs with
    | nil => intro s hs; exact hs
    | cons r rest ih =>
      intro s hs
      exact ih ((step s r).1) (step_preserves_regioesInvariant s r hs)
  refine H ⟨defaultDB, defaultConfig⟩ ?_
  intro x hx
  simp [defaultDB] at hx
